import Mathlib

/-!
Verification of the ChatGPT-Python-Client repository (`src/chat_client.py`)
against its natural-language specification.

The embedding is shallow: each Python function of the client is translated
into a Lean definition over explicit inputs.  Network effects (the GET of the
landing page and the POST of the chat submission) are modelled by passing the
transport's outcome as data; Python exceptions are modelled by an inductive
type `PyExc` whose constructors correspond to the dynamic exception classes
that can occur in the client, and fallible code returns `Except PyExc`.
-/

/-- `ChatModelEnum` from the source: the three supported model variants. -/
inductive ChatModelEnum
  | GPT4O
  | GPT4O_MINI
  | GPT4O_LATEST
deriving DecidableEq, Repr

/-- `ChatModelEnum.to_api_string`: the fixed enum-to-API-string lookup table. -/
def ChatModelEnum.to_api_string (model : ChatModelEnum) : String :=
  match model with
  | .GPT4O => "gpt-4o"
  | .GPT4O_MINI => "gpt-4o-mini"
  | .GPT4O_LATEST => "chatgpt-4o-latest"

/-- `Message` dataclass: a chat message with a role and content. -/
structure Message where
  role : String
  content : String
deriving DecidableEq, Repr

/-- Dynamic exception classes reachable in the client.  The first four are the
client's own hierarchy (`ChatGPTError` base plus its three subclasses); the
last four model exceptions of the libraries the client calls:
`requests.HTTPError` from `raise_for_status`, `json.JSONDecodeError` from
`response.json()`, `AssertionError` from the `assert isinstance` check, and a
network-level transport exception from `session.get` / `session.post`. -/
inductive PyExc
  | chatGPTError (msg : String)
  | connectionError (msg : String)
  | authenticationError (msg : String)
  | parseError (msg : String)
  | httpError (status : Nat)
  | jsonDecodeError
  | assertionError (msg : String)
  | transportError (msg : String)
deriving DecidableEq, Repr

/-- The Python `str(e)` rendering used when an exception is interpolated into
a wrapper message.  For the client's own exceptions and `AssertionError` this
is exactly the constructor message; for the library exceptions the exact text
is library-generated and modelled by a fixed rendering. -/
def pyStr : PyExc → String
  | .chatGPTError msg => msg
  | .connectionError msg => msg
  | .authenticationError msg => msg
  | .parseError msg => msg
  | .httpError status => toString status ++ " Error for url" -- requests' rendering, abstracted
  | .jsonDecodeError => "Expecting value" -- json module's rendering, abstracted
  | .assertionError msg => msg
  | .transportError msg => msg

/-- The dynamic class of an exception, used to state which error kind a
caller observes. -/
inductive ErrKind
  | base
  | conn
  | auth
  | parse
  | http
  | jsonDec
  | assertFail
  | transport
deriving DecidableEq, Repr

/-- Classify an exception by its dynamic class. -/
def kindOf : PyExc → ErrKind
  | .chatGPTError _ => .base
  | .connectionError _ => .conn
  | .authenticationError _ => .auth
  | .parseError _ => .parse
  | .httpError _ => .http
  | .jsonDecodeError => .jsonDec
  | .assertionError _ => .assertFail
  | .transportError _ => .transport

/-- `isinstance(e, ChatGPTError)`: whether the exception is one of the four
defined error kinds of the client's taxonomy. -/
def isDefinedKind (e : PyExc) : Bool :=
  match kindOf e with
  | .base => true
  | .conn => true
  | .auth => true
  | .parse => true
  | _ => false

/-- The kind of the error carried by a chat result, if any. -/
def resultKind : Except PyExc String → Option ErrKind
  | .error e => some (kindOf e)
  | .ok _ => none

/-! ## The token extractor (`_get_auth_tokens`, lines 125-131)

`re.search(r'data-nonce="(.+?)"', text)` is modelled over `List Char`.
`re.search` tries each start position left to right; at a position the
pattern matches when the literal part (`data-nonce="`) is a prefix there and
the lazy group `(.+?)` can be satisfied: the group takes the shortest
sequence of at least one character, none of which may be a newline (`.` does
not match `\n`), such that the next character is `"`. -/

/-- The lazy group `(.+?)` followed by `"`: having consumed `acc` (reversed),
scan for the closing quote; a newline or the end of input fails the match. -/
def lazyCaptureGo (acc : List Char) : List Char → Option (List Char)
  | [] => none
  | c :: rest =>
    if c = '"' then some acc.reverse
    else if c = Char.ofNat 10 then none
    else lazyCaptureGo (c :: acc) rest

/-- Match `(.+?)"` against the input: at least one non-newline character,
then extend lazily to the first closing quote. -/
def lazyCapture : List Char → Option (List Char)
  | [] => none
  | c :: rest =>
    if c = Char.ofNat 10 then none
    else lazyCaptureGo [c] rest

/-- `re.search(pat ++ '(.+?)"', text).group(1)`: scan start positions left to
right; at the first position where the literal prefix matches and the lazy
group succeeds, return the captured group. -/
def reSearchCapture (pat : List Char) : List Char → Option (List Char)
  | [] => none
  | c :: rest =>
    if pat.isPrefixOf (c :: rest) then
      match lazyCapture ((c :: rest).drop pat.length) with
      | some v => some v
      | none => reSearchCapture pat rest
    else reSearchCapture pat rest

/-- Literal part of the nonce pattern `data-nonce="(.+?)"`. -/
def dataNoncePat : List Char := "data-nonce=\"".data

/-- Literal part of the post-id pattern `data-post-id="(.+?)"`. -/
def dataPostIdPat : List Char := "data-post-id=\"".data

/-- The pure parsing part of `_get_auth_tokens` (lines 125-131): run both
regex searches on the landing-page text; if either fails, no token pair is
produced (the caller raises `ParseError`); otherwise return
`(nonce, post_id)`. -/
def tokenSearch (text : String) : Option (String × String) :=
  match reSearchCapture dataNoncePat text.data, reSearchCapture dataPostIdPat text.data with
  | some nonce, some postId => some (String.mk nonce, String.mk postId)
  | _, _ => none

/-! ## Transport outcomes -/

/-- The GET response of the landing page: HTTP status and body text. -/
structure HtmlResponse where
  status : Nat
  text : String
deriving DecidableEq, Repr

/-- Outcome of `session.get`: either the call raised (network failure) or a
response was returned. -/
inductive GetOutcome
  | exc (e : PyExc)
  | resp (r : HtmlResponse)
deriving Repr

/-- `response.raise_for_status()` raises exactly for 4xx and 5xx statuses. -/
def raiseForStatusFails (status : Nat) : Bool := 400 ≤ status

/-- `_get_auth_tokens` (lines 104-131): any exception from the GET or from
`raise_for_status` is wrapped into `ConnectionError`; then both tokens are
parsed from the body, and a missing match is a `ParseError`. -/
def get_auth_tokens (g : GetOutcome) : Except PyExc (String × String) :=
  match g with
  | .exc e =>
    .error (.connectionError ("Failed to retrieve authentication tokens: " ++ pyStr e))
  | .resp r =>
    if raiseForStatusFails r.status then
      .error (.connectionError
        ("Failed to retrieve authentication tokens: " ++ pyStr (.httpError r.status)))
    else
      match tokenSearch r.text with
      | some tokens => .ok tokens
      | none => .error (.parseError "Failed to parse authentication tokens from response")

/-! ## The conversation formatter (`_prepare_conversation`, lines 133-147) -/

/-- The fixed language directive the formatter always prepends. -/
def directiveLine : String :=
  "Human: strictly respond in the same language as my prompt, preferably English"

/-- The transcript line for one message:
`f"{role}: {msg.content}"` with `role = "Human" if msg.role == "user" else "AI"`. -/
def messageLine (msg : Message) : String :=
  (if msg.role = "user" then "Human" else "AI") ++ ": " ++ msg.content

/-- `_prepare_conversation`: start from the directive line and append one
line per message, in order (the Python `for` loop is a left fold). -/
def prepare_conversation (messages : List Message) : List String :=
  messages.foldl (fun conversation msg => conversation ++ [messageLine msg]) [directiveLine]

/-! ## `json.dumps` of a list of strings

`json.dumps(conversation)` serializes a Python list of strings with default
options: items joined by `", "` inside brackets, strings quoted, and
`ensure_ascii=True` string escaping - `\"`, `\\`, the five short control
escapes `\b \t \n \f \r`, `\u00xx` for the remaining control characters,
characters in the range 0x20..0x7e emitted raw, `\uxxxx` for every other
character below 0x10000, and a `\uxxxx\uxxxx` surrogate pair above it
(lowercase hex digits throughout). -/

/-- Lowercase hex digit for a value below 16 (Python `'%x'`). -/
def hexDigitChar (d : Nat) : Char :=
  if d < 10 then Char.ofNat (48 + d) else Char.ofNat (87 + d)

/-- The four lowercase hex digits of a value below 0x10000 (`'%04x'`). -/
def hex4Chars (n : Nat) : List Char :=
  [hexDigitChar (n / 4096 % 16), hexDigitChar (n / 256 % 16),
   hexDigitChar (n / 16 % 16), hexDigitChar (n % 16)]

/-- `ensure_ascii` escaping of one character. -/
def encodeJChar (c : Char) : List Char :=
  if c = '"' then ['\\', '"']
  else if c = '\\' then ['\\', '\\']
  else if c = Char.ofNat 8 then ['\\', 'b']
  else if c = Char.ofNat 9 then ['\\', 't']
  else if c = Char.ofNat 10 then ['\\', 'n']
  else if c = Char.ofNat 12 then ['\\', 'f']
  else if c = Char.ofNat 13 then ['\\', 'r']
  else if c.toNat < 0x20 then '\\' :: 'u' :: hex4Chars c.toNat
  else if c.toNat ≤ 0x7e then [c]
  else if c.toNat < 0x10000 then '\\' :: 'u' :: hex4Chars c.toNat
  else
    '\\' :: 'u' :: hex4Chars (0xd800 + (c.toNat - 0x10000) / 0x400) ++
    '\\' :: 'u' :: hex4Chars (0xdc00 + (c.toNat - 0x10000) % 0x400)

/-- Escape a whole string body. -/
def encodeJString (s : List Char) : List Char :=
  (s.map encodeJChar).flatten

/-- Python `', '.join(pieces)`. -/
def joinCommaSpace : List (List Char) → List Char
  | [] => []
  | [piece] => piece
  | piece :: rest => piece ++ ',' :: ' ' :: joinCommaSpace rest

/-- `json.dumps` of a list of strings, over character lists. -/
def jsonDumpsItems (items : List (List Char)) : List Char :=
  '[' :: joinCommaSpace (items.map (fun s => '"' :: encodeJString s ++ ['"'])) ++ [']']

/-- `json.dumps` of a Python list of strings. -/
def jsonDumpsStrList (l : List String) : String :=
  String.mk (jsonDumpsItems (l.map String.data))

/-! ## `json.loads` restricted to arrays of strings

The round-trip claim parses the serialized transcript back.  The decoder
below models `json.loads` on inputs whose top-level value is an array of
strings: optional JSON whitespace, bracketed comma-separated quoted strings,
with the escape repertoire `\" \\ \/ \b \f \n \r \t \uXXXX` (hex digits of
either case, high/low surrogate pairs combined; a lone surrogate is rejected
since it denotes no Unicode scalar value).  In strict mode unescaped control
characters below 0x20 are rejected inside strings. -/

/-- Numeric value of one hex digit, either case. -/
def hexCharVal (c : Char) : Option Nat :=
  if '0' ≤ c ∧ c ≤ '9' then some (c.toNat - 48)
  else if 'a' ≤ c ∧ c ≤ 'f' then some (c.toNat - 87)
  else if 'A' ≤ c ∧ c ≤ 'F' then some (c.toNat - 55)
  else none

/-- Value of a four-hex-digit escape. -/
def hex4Val (a b c d : Char) : Option Nat :=
  match hexCharVal a, hexCharVal b, hexCharVal c, hexCharVal d with
  | some x, some y, some z, some w => some (4096 * x + 256 * y + 16 * z + w)
  | _, _, _, _ => none

/-- The single-character escapes `\" \\ \/ \b \f \n \r \t`. -/
def simpleUnescape (e : Char) : Option Char :=
  if e = '"' then some '"'
  else if e = '\\' then some '\\'
  else if e = '/' then some '/'
  else if e = 'b' then some (Char.ofNat 8)
  else if e = 'f' then some (Char.ofNat 12)
  else if e = 'n' then some (Char.ofNat 10)
  else if e = 'r' then some (Char.ofNat 13)
  else if e = 't' then some (Char.ofNat 9)
  else none

/-- Parse four hex digits; return their value and the rest of the input. -/
def parseHex4 : List Char → Option (Nat × List Char)
  | h1 :: h2 :: h3 :: h4 :: rest => (hex4Val h1 h2 h3 h4).map (fun n => (n, rest))
  | _ => none

/-- Decode the part of a string escape after the backslash: a
single-character escape, a `\uXXXX` scalar, or a high/low surrogate pair
spelled as two consecutive `\uXXXX` escapes.  A lone surrogate denotes no
Unicode scalar value and is rejected. -/
def parseEscapeBody : List Char → Option (Char × List Char)
  | [] => none
  | e :: rest =>
    if e = 'u' then
      match parseHex4 rest with
      | none => none
      | some (n, rest2) =>
        if 0xd800 ≤ n ∧ n ≤ 0xdbff then
          match rest2 with
          | b2 :: u2 :: rest3 =>
            if b2 = '\\' ∧ u2 = 'u' then
              match parseHex4 rest3 with
              | none => none
              | some (m, rest4) =>
                if 0xdc00 ≤ m ∧ m ≤ 0xdfff then
                  some (Char.ofNat (0x10000 + 0x400 * (n - 0xd800) + (m - 0xdc00)), rest4)
                else none
            else none
          | _ => none
        else if 0xdc00 ≤ n ∧ n ≤ 0xdfff then none
        else some (Char.ofNat n, rest2)
    else
      (simpleUnescape e).map (fun d => (d, rest))

/-- Parse a JSON string body (the part after the opening quote) up to and
including the closing quote; return the decoded content and the rest of the
input.  The fuel argument only bounds the recursion; every step consumes at
least one input character, so fuel of one more than the input length never
runs out. -/
def parseJString : Nat → List Char → Option (List Char × List Char)
  | 0, _ => none
  | fuel + 1, l =>
    match l with
    | [] => none
    | c :: rest =>
      if c = '"' then some ([], rest)
      else if c = '\\' then
        match parseEscapeBody rest with
        | some (d, rest2) =>
          match parseJString fuel rest2 with
          | some (s, r) => some (d :: s, r)
          | none => none
        | none => none
      else if c.toNat < 0x20 then none
      else
        match parseJString fuel rest with
        | some (s, r) => some (c :: s, r)
        | none => none

/-- JSON insignificant whitespace. -/
def isJsonWs (c : Char) : Bool :=
  c = ' ' ∨ c = Char.ofNat 9 ∨ c = Char.ofNat 10 ∨ c = Char.ofNat 13

/-- Skip leading JSON whitespace. -/
def skipWs : List Char → List Char
  | [] => []
  | c :: rest => if isJsonWs c then skipWs rest else c :: rest

/-- Parse the remaining items of a non-empty array: either a closing bracket
or a comma followed by another string, repeatedly.  The fuel argument bounds
the number of items and makes the recursion structural. -/
def parseMoreItems : Nat → List Char → Option (List (List Char) × List Char)
  | 0, _ => none
  | fuel + 1, l =>
    match skipWs l with
    | [] => none
    | c :: rest =>
      if c = ']' then some ([], rest)
      else if c = ',' then
        match skipWs rest with
        | [] => none
        | c2 :: rest2 =>
          if c2 = '"' then
            match parseJString (rest2.length + 1) rest2 with
            | some (s, rest3) =>
              match parseMoreItems fuel rest3 with
              | some (items, rest4) => some (s :: items, rest4)
              | none => none
            | none => none
          else none
      else none

/-- Parse a JSON array of strings; return the items and the rest of the
input. -/
def parseStrArrayChars (l : List Char) : Option (List (List Char) × List Char) :=
  match skipWs l with
  | [] => none
  | c :: rest =>
    if c = '[' then
      match skipWs rest with
      | [] => none
      | c2 :: rest2 =>
        if c2 = ']' then some ([], rest2)
        else if c2 = '"' then
          match parseJString (rest2.length + 1) rest2 with
          | some (s, rest3) =>
            match parseMoreItems (rest3.length + 1) rest3 with
            | some (items, rest4) => some (s :: items, rest4)
            | none => none
          | none => none
        else none
    else none

/-- `json.loads` on a document whose top-level value is an array of strings:
parse the array and require only whitespace to remain. -/
def jsonLoadsStrList (s : String) : Option (List String) :=
  match parseStrArrayChars s.data with
  | some (items, rest) =>
    if skipWs rest = [] then some (items.map String.mk) else none
  | none => none

/-! ## The POST phase and the orchestrator (`chat`, lines 149-199) -/

/-- A parsed JSON value, the result of `response.json()`. -/
inductive JsonValue
  | null
  | bool (b : Bool)
  | num (n : Int)
  | str (s : String)
  | arr (items : List JsonValue)
  | obj (fields : List (String × JsonValue))

/-- The body of the POST response, as seen by `response.json()`: either it is
not valid JSON (the call raises `JSONDecodeError`) or it parses to a value.
A parsed object is an association list with distinct keys (`json.loads`
collapses duplicate keys into a dict). -/
inductive PostBody
  | notJson
  | json (v : JsonValue)

/-- Outcome of `session.post`: either the call raised (network failure) or a
response with a status and a body was returned. -/
inductive PostOutcome
  | exc (e : PyExc)
  | resp (status : Nat) (body : PostBody)

/-- The `try` block of `chat` after the payload is posted (lines 181-196):
`raise_for_status`, `response.json()`, the `assert isinstance(_, dict)`
check, and the typed extraction of the `data` field.  Each failure raises
the corresponding exception; the surrounding `except` is modelled in `chat`
itself. -/
def interpretPostResponse (p : PostOutcome) : Except PyExc String :=
  match p with
  | .exc e => .error e
  | .resp status body =>
    if raiseForStatusFails status then .error (.httpError status)
    else
      match body with
      | .notJson => .error .jsonDecodeError
      | .json v =>
        match v with
        | .obj fields =>
          match fields.lookup "data" with
          | some (.str s) => .ok s
          | _ => .error (.parseError "Invalid message format in response")
        | _ => .error (.assertionError "Invalid response format")

/-- `BASE_URL` of the client. -/
def BASE_URL : String := "https://chatgpt.es"

/-- `API_ENDPOINT`: `urljoin(BASE_URL, '/wp-admin/admin-ajax.php')`. -/
def API_ENDPOINT : String := "https://chatgpt.es/wp-admin/admin-ajax.php"

/-- The form body assembled by `chat` (lines 168-178), one field per key of
the Python dict. -/
structure ChatRequestPayload where
  wpnonce : String
  post_id : String
  url : String
  action : String
  message : String
  bot_id : String
  chatbot_identity : String
  wpaicg_chat_client_id : String
  wpaicg_chat_history : String
deriving DecidableEq, Repr

/-- `bytes.hex()`: two lowercase hex digits per byte. -/
def bytesToHex (bytes : List Nat) : String :=
  String.mk ((bytes.map (fun b => [hexDigitChar (b % 256 / 16), hexDigitChar (b % 16)])).flatten)

/-- The per-call inputs of one `chat` invocation that come from outside the
client's code: the GET outcome, the bytes drawn by `os.urandom(5)`, and the
POST outcome. -/
structure ChatEnv where
  getOutcome : GetOutcome
  randomBytes : List Nat
  postOutcome : PostOutcome

deriving instance DecidableEq for Except

/-- The observable outcome of one `chat` call: the returned text or raised
exception, and the payload posted to the API endpoint (`none` when the call
failed before any POST was attempted). -/
structure ChatOutcome where
  result : Except PyExc String
  posted : Option ChatRequestPayload
deriving DecidableEq, Repr

/-- `ChatGPT.chat` (lines 149-199).  Token fetch failures propagate as
raised (the call to `_get_auth_tokens` is outside the `try` block, so no
POST happens).  Otherwise the transcript and payload are built and posted;
any exception raised inside the `try` block - transport failure, HTTP status
error, JSON decode error, the assertion, or the interpreter's own
`ParseError` - is caught by `except Exception` and re-raised as the base
`ChatGPTError` with the original message interpolated. -/
def chat (env : ChatEnv) (query : String) (model : ChatModelEnum) : ChatOutcome :=
  match get_auth_tokens env.getOutcome with
  | .error e => { result := .error e, posted := none }
  | .ok (nonce, postId) =>
    let messages : List Message := [{ role := "user", content := query }]
    let conversation := prepare_conversation messages
    let payload : ChatRequestPayload := {
      wpnonce := nonce
      post_id := postId
      url := BASE_URL
      action := "wpaicg_chat_shortcode_message"
      message := (messages.getLast (List.cons_ne_nil _ _)).content
      bot_id := "0"
      chatbot_identity := "shortcode"
      wpaicg_chat_client_id := bytesToHex env.randomBytes
      wpaicg_chat_history := jsonDumpsStrList conversation }
    match interpretPostResponse env.postOutcome with
    | .ok s => { result := .ok s, posted := some payload }
    | .error e =>
      { result := .error (.chatGPTError ("Chat request failed: " ++ pyStr e))
        posted := some payload }

/-- Whether a character is a lowercase hex digit (the alphabet of
`bytes.hex()`). -/
def isLowerHexDigitChar (c : Char) : Bool :=
  ('0' ≤ c ∧ c ≤ '9') ∨ ('a' ≤ c ∧ c ≤ 'f')

/-! ## Helper lemmas -/

/-- Appending through a left fold is mapping. -/
theorem foldl_append_singleton {α β : Type} (f : α → β) (l : List α) (acc : List β) :
    l.foldl (fun a x => a ++ [f x]) acc = acc ++ l.map f := by
  induction l generalizing acc with
  | nil => simp
  | cons x xs ih => simp [List.foldl_cons, ih]

/-- Unfolding of `chat` once the token fetch has succeeded: the payload is
determined by the tokens, the query and the random bytes, and the result is
the interpreter's verdict with every error re-wrapped into the base
`ChatGPTError`. -/
theorem chat_ok (env : ChatEnv) (q : String) (m : ChatModelEnum) (nonce postId : String)
    (hget : get_auth_tokens env.getOutcome = Except.ok (nonce, postId)) :
    chat env q m =
      { result :=
          match interpretPostResponse env.postOutcome with
          | .ok s => .ok s
          | .error e => .error (.chatGPTError ("Chat request failed: " ++ pyStr e))
        posted := some
          { wpnonce := nonce
            post_id := postId
            url := BASE_URL
            action := "wpaicg_chat_shortcode_message"
            message := q
            bot_id := "0"
            chatbot_identity := "shortcode"
            wpaicg_chat_client_id := bytesToHex env.randomBytes
            wpaicg_chat_history :=
              jsonDumpsStrList (prepare_conversation [{ role := "user", content := q }]) } } := by
  unfold chat
  rw [hget]
  cases hi : interpretPostResponse env.postOutcome with
  | ok s => rfl
  | error e => rfl

/-- Unfolding of `chat` when the token fetch failed: the error propagates
unwrapped and nothing is posted. -/
theorem chat_err (env : ChatEnv) (q : String) (m : ChatModelEnum) (e : PyExc)
    (hget : get_auth_tokens env.getOutcome = Except.error e) :
    chat env q m = { result := .error e, posted := none } := by
  unfold chat
  rw [hget]

/-- `get_auth_tokens` only ever fails with `ConnectionError` or
`ParseError`. -/
theorem get_auth_tokens_err_kind (g : GetOutcome) (e : PyExc)
    (h : get_auth_tokens g = Except.error e) :
    kindOf e = ErrKind.conn ∨ kindOf e = ErrKind.parse := by
  unfold get_auth_tokens at h
  cases g with
  | exc e0 => simp at h; subst h; left; rfl
  | resp r =>
    by_cases hs : raiseForStatusFails r.status
    · simp [hs] at h; subst h; left; rfl
    · simp [hs] at h
      cases htok : tokenSearch r.text with
      | some tokens => rw [htok] at h; simp at h
      | none => rw [htok] at h; simp at h; subst h; right; rfl

/-- The lazy-group scan over characters that are neither a quote nor a
newline consumes them all and closes at the following quote. -/
theorem lazyCaptureGo_append (v : List Char) (acc rest : List Char)
    (hv : ∀ c ∈ v, c ≠ '"' ∧ c ≠ Char.ofNat 10) :
    lazyCaptureGo acc (v ++ '"' :: rest) = some (acc.reverse ++ v) := by
  induction v generalizing acc with
  | nil => simp [lazyCaptureGo]
  | cons c v' ih =>
    have hc := hv c (by simp)
    simp only [List.cons_append, lazyCaptureGo, if_neg hc.1, if_neg hc.2, List.append_eq]
    rw [ih (c :: acc) (fun d hd => hv d (by simp [hd]))]
    simp

/-- The lazy group captures exactly a nonempty quote-free newline-free block
delimited by the next quote. -/
theorem lazyCapture_eq (v rest : List Char) (hne : v ≠ [])
    (hv : ∀ c ∈ v, c ≠ '"' ∧ c ≠ Char.ofNat 10) :
    lazyCapture (v ++ '"' :: rest) = some v := by
  cases v with
  | nil => exact absurd rfl hne
  | cons c v' =>
    have hc := hv c (by simp)
    simp only [List.cons_append, lazyCapture, if_neg hc.2]
    rw [lazyCaptureGo_append v' [c] rest (fun d hd => hv d (by simp [hd]))]
    simp

/-- If no quote remains, the lazy-group scan fails. -/
theorem lazyCaptureGo_none (l acc : List Char) (h : ∀ c ∈ l, c ≠ '"') :
    lazyCaptureGo acc l = none := by
  induction l generalizing acc with
  | nil => rfl
  | cons c rest ih =>
    have hc := h c (by simp)
    simp only [lazyCaptureGo, if_neg hc]
    by_cases hn : c = Char.ofNat 10
    · simp [hn]
    · simp only [if_neg hn]
      exact ih (c :: acc) (fun d hd => h d (by simp [hd]))

/-- If the literal pattern fails as a prefix at every position, or the lazy
group fails wherever it matches, the whole search fails. -/
theorem reSearchCapture_none (pat l : List Char)
    (h : ∀ i, pat.isPrefixOf (l.drop i) = true →
      lazyCapture (l.drop (i + pat.length)) = none) :
    reSearchCapture pat l = none := by
  induction l with
  | nil => rfl
  | cons c rest ih =>
    simp only [reSearchCapture]
    by_cases hp : pat.isPrefixOf (c :: rest) = true
    · have hcap := h 0 (by simpa using hp)
      simp only [List.drop_zero] at hcap
      simp only [hp, if_true]
      rw [show (c :: rest).drop pat.length = (c :: rest).drop (0 + pat.length) by simp]
      rw [hcap]
      exact ih (fun i hi => by
        have := h (i + 1) (by simpa using hi)
        simpa [Nat.add_right_comm] using this)
    · simp only [hp]
      simp only [Bool.false_eq_true, if_false]
      exact ih (fun i hi => by
        have := h (i + 1) (by simpa using hi)
        simpa [Nat.add_right_comm] using this)

/-- First-match semantics of the search: if the literal pattern first occurs
at the end of `pre` and the lazy group succeeds there with capture `v`, the
search returns `v`. -/
theorem reSearchCapture_first (pat pre tail v : List Char) (hne : pat ≠ [])
    (hcap : lazyCapture tail = some v)
    (hpre : ∀ i < pre.length, pat.isPrefixOf ((pre ++ pat ++ tail).drop i) = false) :
    reSearchCapture pat (pre ++ pat ++ tail) = some v := by
  induction pre with
  | nil =>
    cases hp : pat with
    | nil => exact absurd hp hne
    | cons c pat' =>
      subst hp
      have hpref : (c :: pat').isPrefixOf ((c :: pat') ++ tail) = true := by
        rw [List.isPrefixOf_iff_prefix]
        exact List.prefix_append (c :: pat') tail
      simp only [List.nil_append, List.cons_append, reSearchCapture, List.append_eq,
        ← List.cons_append, hpref, if_true, List.drop_left, hcap]
  | cons c pre' ih =>
    have h0 := hpre 0 (by simp)
    simp only [List.drop_zero] at h0
    simp only [List.cons_append] at h0
    simp only [List.cons_append, reSearchCapture, List.append_eq]
    simp only [h0, Bool.false_eq_true, if_false]
    exact ih (fun i hi => by
      have := hpre (i + 1) (by simpa using hi)
      simpa using this)

/-! ## Claim theorems -/

/-- C6: For every ordered input sequence of Messages (including the empty
sequence), the Conversation Formatter is deterministic (it is a pure
function of its input) and order-preserving, the fixed language directive
line is always present and always first, and for each input message the
corresponding output line is `"<Label>: <content>"` where the label is
`"Human"` for role `user` and `"AI"` for any non-user role. -/
theorem prepare_conversation_spec (messages : List Message) :
    prepare_conversation messages =
      directiveLine :: messages.map
        (fun msg => (if msg.role = "user" then "Human" else "AI") ++ ": " ++ msg.content) := by
  unfold prepare_conversation
  rw [foldl_append_singleton]
  rfl

/-- C9: The `model` argument of `chat` has no effect on the request or the
result: with identical other inputs (tokens, query, random bytes, transport
responses) any two model variants produce an identical outcome, both in the
returned result and in the posted payload (which contains no model field). -/
theorem chat_model_irrelevant (env : ChatEnv) (query : String) (m1 m2 : ChatModelEnum) :
    chat env query m1 = chat env query m2 := rfl

/-- C4: When the landing page is served but the nonce pattern or the post-id
pattern is absent from its HTML, `chat` fails with `ParseError` and no POST
request is attempted. -/
theorem chat_missing_token_short_circuits (env : ChatEnv) (q : String) (m : ChatModelEnum)
    (r : HtmlResponse) (hresp : env.getOutcome = GetOutcome.resp r) (hst : r.status < 400)
    (habsent : reSearchCapture dataNoncePat r.text.data = none ∨
      reSearchCapture dataPostIdPat r.text.data = none) :
    (chat env q m).result =
      Except.error (PyExc.parseError "Failed to parse authentication tokens from response")
    ∧ (chat env q m).posted = none := by
  have htok : tokenSearch r.text = none := by
    unfold tokenSearch
    rcases habsent with h | h
    · cases h2 : reSearchCapture dataPostIdPat r.text.data <;> simp [h, h2]
    · cases h2 : reSearchCapture dataNoncePat r.text.data <;> simp [h, h2]
  have hfail : raiseForStatusFails r.status = false := by
    simp only [raiseForStatusFails, decide_eq_false_iff_not]
    omega
  have hget : get_auth_tokens env.getOutcome =
      Except.error (.parseError "Failed to parse authentication tokens from response") := by
    unfold get_auth_tokens
    rw [hresp]
    simp [hfail, htok]
  rw [chat_err env q m _ hget]
  exact ⟨rfl, rfl⟩

/-- Witness for C4: a landing page with no token attributes at all makes
`chat` fail with `ParseError` before any POST. -/
theorem chat_missing_token_short_circuits_witness :
    (chat { getOutcome := GetOutcome.resp ⟨200, "<html><body>no tokens here</body></html>"⟩
            randomBytes := [0, 0, 0, 0, 0]
            postOutcome := PostOutcome.resp 200
              (PostBody.json (JsonValue.obj [("data", JsonValue.str "x")])) }
        "Hi" ChatModelEnum.GPT4O).result =
      Except.error (PyExc.parseError "Failed to parse authentication tokens from response")
    ∧ (chat { getOutcome := GetOutcome.resp ⟨200, "<html><body>no tokens here</body></html>"⟩
              randomBytes := [0, 0, 0, 0, 0]
              postOutcome := PostOutcome.resp 200
                (PostBody.json (JsonValue.obj [("data", JsonValue.str "x")])) }
        "Hi" ChatModelEnum.GPT4O).posted = none :=
  chat_missing_token_short_circuits _ "Hi" ChatModelEnum.GPT4O
    ⟨200, "<html><body>no tokens here</body></html>"⟩ rfl (by decide) (Or.inl (by decide))

/-- C5: For well-formed HTML containing both attributes - each value
nonempty, quote-free and newline-free, and each attribute pattern occurring
first at the stated position - the token extractor returns the exact
quote-delimited attribute values verbatim, independently of the order of
the two attributes in the document. -/
theorem tokenSearch_returns_verbatim (text : String) (pre1 v1 suf1 pre2 v2 suf2 : List Char)
    (h1 : text.data = pre1 ++ dataNoncePat ++ (v1 ++ '"' :: suf1))
    (h1ne : v1 ≠ []) (h1ok : ∀ c ∈ v1, c ≠ '"' ∧ c ≠ Char.ofNat 10)
    (h1first : ∀ i < pre1.length, dataNoncePat.isPrefixOf (text.data.drop i) = false)
    (h2 : text.data = pre2 ++ dataPostIdPat ++ (v2 ++ '"' :: suf2))
    (h2ne : v2 ≠ []) (h2ok : ∀ c ∈ v2, c ≠ '"' ∧ c ≠ Char.ofNat 10)
    (h2first : ∀ i < pre2.length, dataPostIdPat.isPrefixOf (text.data.drop i) = false) :
    tokenSearch text = some (String.mk v1, String.mk v2) := by
  have hn : reSearchCapture dataNoncePat text.data = some v1 := by
    rw [h1]
    exact reSearchCapture_first dataNoncePat pre1 (v1 ++ '"' :: suf1) v1 (by decide)
      (lazyCapture_eq v1 suf1 h1ne h1ok)
      (fun i hi => by rw [← h1]; exact h1first i hi)
  have hp : reSearchCapture dataPostIdPat text.data = some v2 := by
    rw [h2]
    exact reSearchCapture_first dataPostIdPat pre2 (v2 ++ '"' :: suf2) v2 (by decide)
      (lazyCapture_eq v2 suf2 h2ne h2ok)
      (fun i hi => by rw [← h2]; exact h2first i hi)
  unfold tokenSearch
  rw [hn, hp]

/-- Witness for C5: the post-id attribute appears before the nonce attribute
and both values are returned verbatim. -/
theorem tokenSearch_returns_verbatim_witness :
    tokenSearch "<a data-post-id=\"99\" b data-nonce=\"abc123\">" = some ("abc123", "99") :=
  tokenSearch_returns_verbatim "<a data-post-id=\"99\" b data-nonce=\"abc123\">"
    "<a data-post-id=\"99\" b ".data "abc123".data ">".data
    "<a ".data "99".data " b data-nonce=\"abc123\">".data
    rfl (by decide) (by decide) (by decide)
    rfl (by decide) (by decide) (by decide)

/-- Counterexample to C10: the document contains `data-nonce=""` (nothing
between the quotes) and no later occurrence of the attribute at all, yet the
extractor does not fail: the lazy group consumes the closing quote itself
and extends to the next quote in the document, so the extracted "nonce" is
the garbage value `" class=` and `_get_auth_tokens` succeeds. -/
theorem empty_nonce_value_still_matches :
    tokenSearch "data-post-id=\"7\" data-nonce=\"\" class=\"x\"" = some ("\" class=", "7")
    ∧ get_auth_tokens
        (GetOutcome.resp ⟨200, "data-post-id=\"7\" data-nonce=\"\" class=\"x\""⟩) =
      Except.ok ("\" class=", "7") := by
  exact ⟨by decide, by decide⟩

/-- C10 as amended: an empty attribute value alone does not make extraction
fail; it fails exactly when, in addition, no further `"` character occurs
after the empty attribute's closing quote and the pattern occurs nowhere
else in the document.  Then the extraction pattern - which requires at least
one character between the quotes - has no match, and `_get_auth_tokens`
raises `ParseError`. -/
theorem empty_nonce_without_later_quote_fails (text : String) (pre post : List Char)
    (h : text.data = pre ++ dataNoncePat ++ '"' :: post)
    (hq : ∀ c ∈ post, c ≠ '"')
    (honce : ∀ i < text.data.length, i ≠ pre.length →
      dataNoncePat.isPrefixOf (text.data.drop i) = false) :
    reSearchCapture dataNoncePat text.data = none
    ∧ tokenSearch text = none
    ∧ get_auth_tokens (GetOutcome.resp ⟨200, text⟩) =
        Except.error (PyExc.parseError "Failed to parse authentication tokens from response") := by
  have hnonce : reSearchCapture dataNoncePat text.data = none := by
    apply reSearchCapture_none
    intro i hip
    by_cases hilen : i < text.data.length
    · by_cases hie : i = pre.length
      · subst hie
        have hdrop : text.data.drop (pre.length + dataNoncePat.length) = '"' :: post := by
          rw [h]
          exact List.drop_left' (by simp)
        rw [hdrop]
        simp only [lazyCapture, if_neg (by decide : ¬ ('"' = Char.ofNat 10))]
        exact lazyCaptureGo_none post ['"'] hq
      · rw [honce i hilen hie] at hip
        exact absurd hip (by simp)
    · have hnil : text.data.drop i = [] := List.drop_eq_nil_of_le (by omega)
      rw [hnil] at hip
      exact absurd hip (by decide)
  have htok : tokenSearch text = none := by
    unfold tokenSearch
    rw [hnonce]
  refine ⟨hnonce, htok, ?_⟩
  unfold get_auth_tokens
  simp [raiseForStatusFails, htok]

/-- Witness for the amended C10: the document `<div data-nonce="">` has an
empty nonce value and no quote after it, so extraction fails and
`_get_auth_tokens` raises `ParseError`. -/
theorem empty_nonce_without_later_quote_fails_witness :
    reSearchCapture dataNoncePat "<div data-nonce=\"\">".data = none
    ∧ tokenSearch "<div data-nonce=\"\">" = none
    ∧ get_auth_tokens (GetOutcome.resp ⟨200, "<div data-nonce=\"\">"⟩) =
        Except.error (PyExc.parseError "Failed to parse authentication tokens from response") :=
  empty_nonce_without_later_quote_fails "<div data-nonce=\"\">" "<div ".data ">".data rfl
    (by decide) (by decide)

/-- Counterexample to C1: on a POST response of HTTP 200 whose body is the
JSON object with a non-text `data` field (`42`), `chat` does not fail with
`ParseError`: the `ParseError` raised inside the `try` block is caught by
`except Exception` and re-raised as the base `ChatGPTError` (kind `base`,
not kind `parse`), with the interpreter's message preserved as context. -/
theorem chat_data_nonstring_surfaces_base_kind :
    (chat { getOutcome := GetOutcome.resp ⟨200, "<a data-post-id=\"99\" b data-nonce=\"abc123\">"⟩
            randomBytes := [1, 2, 3, 4, 5]
            postOutcome := PostOutcome.resp 200
              (PostBody.json (JsonValue.obj [("data", JsonValue.num 42)])) }
        "Hi" ChatModelEnum.GPT4O).result =
      Except.error (PyExc.chatGPTError "Chat request failed: Invalid message format in response")
    ∧ resultKind (chat
        { getOutcome := GetOutcome.resp ⟨200, "<a data-post-id=\"99\" b data-nonce=\"abc123\">"⟩
          randomBytes := [1, 2, 3, 4, 5]
          postOutcome := PostOutcome.resp 200
            (PostBody.json (JsonValue.obj [("data", JsonValue.num 42)])) }
        "Hi" ChatModelEnum.GPT4O).result ≠ some ErrKind.parse := by
  exact ⟨by decide, by decide⟩

/-- C1 as amended: with tokens fetched and a success-status POST response,
the Response Interpreter phase distinguishes the body shapes exactly as
claimed - `{"data": "hello"}` returns `"hello"`, an object lacking a
text-valued `data` field raises `ParseError("Invalid message format in
response")` internally, a non-object raises the assertion `"Invalid response
format"`, a non-JSON body raises a JSON decode error - but every failing
shape is surfaced to the caller re-wrapped as the base `ChatGPTError` with
the message `"Chat request failed: <original message>"`, not as
`ParseError`. -/
theorem chat_interpret_phase_results (env : ChatEnv) (q : String) (m : ChatModelEnum)
    (nonce postId : String) (st : Nat) (body : PostBody)
    (hget : get_auth_tokens env.getOutcome = Except.ok (nonce, postId))
    (hpost : env.postOutcome = PostOutcome.resp st body)
    (hst : st < 400) :
    (∀ fields s, body = PostBody.json (JsonValue.obj fields) →
      fields.lookup "data" = some (JsonValue.str s) →
      (chat env q m).result = Except.ok s)
    ∧ (∀ fields, body = PostBody.json (JsonValue.obj fields) →
      (∀ s, fields.lookup "data" ≠ some (JsonValue.str s)) →
      (chat env q m).result =
        Except.error (PyExc.chatGPTError "Chat request failed: Invalid message format in response"))
    ∧ (∀ v, body = PostBody.json v → (∀ fields, v ≠ JsonValue.obj fields) →
      (chat env q m).result =
        Except.error (PyExc.chatGPTError "Chat request failed: Invalid response format"))
    ∧ (body = PostBody.notJson →
      (chat env q m).result =
        Except.error (PyExc.chatGPTError ("Chat request failed: " ++ pyStr PyExc.jsonDecodeError))) := by
  have hfail : raiseForStatusFails st = false := by
    simp only [raiseForStatusFails, decide_eq_false_iff_not]
    omega
  rw [chat_ok env q m nonce postId hget]
  refine ⟨?_, ?_, ?_, ?_⟩
  · intro fields s hbody hlook
    subst hbody
    simp [interpretPostResponse, hpost, hfail, hlook]
  · intro fields hbody hlook
    subst hbody
    simp only [interpretPostResponse, hpost, hfail, Bool.false_eq_true, if_false]
    cases hl : fields.lookup "data" with
    | none => simp; rfl
    | some v =>
      cases v with
      | str s => exact absurd hl (hlook s)
      | null => simp; rfl
      | bool b => simp; rfl
      | num n => simp; rfl
      | arr items => simp; rfl
      | obj fs => simp; rfl
  · intro v hbody hnotobj
    subst hbody
    cases v with
    | obj fields => exact absurd rfl (hnotobj fields)
    | null => simp [interpretPostResponse, hpost, hfail]; rfl
    | bool b => simp [interpretPostResponse, hpost, hfail]; rfl
    | num n => simp [interpretPostResponse, hpost, hfail]; rfl
    | str s => simp [interpretPostResponse, hpost, hfail]; rfl
    | arr items => simp [interpretPostResponse, hpost, hfail]; rfl
  · intro hbody
    subst hbody
    simp [interpretPostResponse, hpost, hfail]

/-- Witness for the amended C1: a success response `{"data": "hello"}`
returns `"hello"`, and an empty-string `data` check via hypothesis
discharge at a concrete environment. -/
theorem chat_interpret_phase_results_witness :
    (chat { getOutcome := GetOutcome.resp ⟨200, "<a data-post-id=\"99\" b data-nonce=\"abc123\">"⟩
            randomBytes := [1, 2, 3, 4, 5]
            postOutcome := PostOutcome.resp 200
              (PostBody.json (JsonValue.obj [("data", JsonValue.str "hello")])) }
        "Hi" ChatModelEnum.GPT4O).result = Except.ok "hello" :=
  (chat_interpret_phase_results _ "Hi" ChatModelEnum.GPT4O "abc123" "99" 200
      (PostBody.json (JsonValue.obj [("data", JsonValue.str "hello")]))
      (by decide) rfl (by decide)).1
    [("data", JsonValue.str "hello")] "hello" rfl rfl

/-- Counterexample to C2: on a POST response with HTTP status 500, `chat`
does not fail with `ConnectionError`: the `HTTPError` raised by
`raise_for_status` inside the `try` block is caught by `except Exception`
and re-raised as the base `ChatGPTError` (kind `base`, not kind `conn`). -/
theorem chat_http500_surfaces_base_kind :
    (chat { getOutcome := GetOutcome.resp ⟨200, "<c data-nonce=\"n1\" data-post-id=\"42\">"⟩
            randomBytes := [9, 9, 9, 9, 9]
            postOutcome := PostOutcome.resp 500
              (PostBody.json (JsonValue.obj [("data", JsonValue.str "x")])) }
        "Hi" ChatModelEnum.GPT4O).result =
      Except.error (PyExc.chatGPTError ("Chat request failed: " ++ pyStr (PyExc.httpError 500)))
    ∧ resultKind (chat
        { getOutcome := GetOutcome.resp ⟨200, "<c data-nonce=\"n1\" data-post-id=\"42\">"⟩
          randomBytes := [9, 9, 9, 9, 9]
          postOutcome := PostOutcome.resp 500
            (PostBody.json (JsonValue.obj [("data", JsonValue.str "x")])) }
        "Hi" ChatModelEnum.GPT4O).result ≠ some ErrKind.conn := by
  exact ⟨by decide, by decide⟩

/-- C2 as amended: a non-success HTTP status on the POST response makes
`chat` fail, but with the base `ChatGPTError` wrapping the HTTP status
error's message, not with `ConnectionError` (only the GET phase converts
status errors to `ConnectionError`). -/
theorem chat_post_http_error_wrapped (env : ChatEnv) (q : String) (m : ChatModelEnum)
    (nonce postId : String) (st : Nat) (body : PostBody)
    (hget : get_auth_tokens env.getOutcome = Except.ok (nonce, postId))
    (hpost : env.postOutcome = PostOutcome.resp st body)
    (hst : 400 ≤ st) :
    (chat env q m).result =
      Except.error (PyExc.chatGPTError ("Chat request failed: " ++ pyStr (PyExc.httpError st))) := by
  have hfail : raiseForStatusFails st = true := by
    simp only [raiseForStatusFails, decide_eq_true_eq]
    exact hst
  rw [chat_ok env q m nonce postId hget]
  simp [interpretPostResponse, hpost, hfail]

/-- Witness for the amended C2: HTTP 500 on the POST yields the wrapped
base-kind failure. -/
theorem chat_post_http_error_wrapped_witness :
    (chat { getOutcome := GetOutcome.resp ⟨200, "<c data-nonce=\"n1\" data-post-id=\"42\">"⟩
            randomBytes := [7, 7, 7, 7, 7]
            postOutcome := PostOutcome.resp 500 PostBody.notJson }
        "Hi" ChatModelEnum.GPT4O).result =
      Except.error (PyExc.chatGPTError ("Chat request failed: " ++ pyStr (PyExc.httpError 500))) :=
  chat_post_http_error_wrapped _ "Hi" ChatModelEnum.GPT4O "n1" "42" 500 PostBody.notJson
    (by decide) rfl (by decide)

/-- Counterexample to C3: the claim that errors which are already a defined
kind propagate as that most specific kind is false for the POST/interpret
phase: on the body `{}` the interpreter raises `ParseError`, but the caller
observes the base `ChatGPTError`, not kind `parse`. -/
theorem chat_parse_error_not_propagated :
    (chat { getOutcome := GetOutcome.resp ⟨200, "<c data-nonce=\"n1\" data-post-id=\"42\">"⟩
            randomBytes := [0, 1, 2, 3, 4]
            postOutcome := PostOutcome.resp 200 (PostBody.json (JsonValue.obj [])) }
        "Hi" ChatModelEnum.GPT4O).result =
      Except.error (PyExc.chatGPTError "Chat request failed: Invalid message format in response")
    ∧ resultKind (chat
        { getOutcome := GetOutcome.resp ⟨200, "<c data-nonce=\"n1\" data-post-id=\"42\">"⟩
          randomBytes := [0, 1, 2, 3, 4]
          postOutcome := PostOutcome.resp 200 (PostBody.json (JsonValue.obj [])) }
        "Hi" ChatModelEnum.GPT4O).result ≠ some ErrKind.parse := by
  exact ⟨by decide, by decide⟩

/-- C3 as amended: every failing `chat` call surfaces one of the four
defined error kinds, never an unclassified exception; GET-phase errors
propagate with their specific kind (`ConnectionError` or `ParseError`),
while every exception of the POST/interpret phase - including ones that are
already a defined kind - is re-wrapped into the generic base kind with the
original message preserved as context. -/
theorem chat_error_kind_classification (env : ChatEnv) (q : String) (m : ChatModelEnum) :
    (∀ e, (chat env q m).result = Except.error e → isDefinedKind e = true)
    ∧ (∀ e, get_auth_tokens env.getOutcome = Except.error e →
        (chat env q m).result = Except.error e)
    ∧ (∀ nonce postId e, get_auth_tokens env.getOutcome = Except.ok (nonce, postId) →
        interpretPostResponse env.postOutcome = Except.error e →
        (chat env q m).result =
          Except.error (PyExc.chatGPTError ("Chat request failed: " ++ pyStr e))) := by
  refine ⟨?_, ?_, ?_⟩
  · intro e he
    cases hg : get_auth_tokens env.getOutcome with
    | error e0 =>
      rw [chat_err env q m e0 hg] at he
      simp only [Except.error.injEq] at he
      subst he
      rcases get_auth_tokens_err_kind env.getOutcome e0 hg with h | h <;>
        simp [isDefinedKind, h]
    | ok tp =>
      obtain ⟨nonce, postId⟩ := tp
      rw [chat_ok env q m nonce postId hg] at he
      cases hi : interpretPostResponse env.postOutcome with
      | ok s => rw [hi] at he; simp at he
      | error e1 =>
        rw [hi] at he
        simp only [Except.error.injEq] at he
        subst he
        rfl
  · intro e hg
    rw [chat_err env q m e hg]
  · intro nonce postId e hg hi
    rw [chat_ok env q m nonce postId hg]
    simp only [hi]

/-- Witness for the amended C3: a GET-phase transport failure surfaces as
`ConnectionError`, a defined kind, with the cause in the message. -/
theorem chat_error_kind_classification_witness :
    (chat { getOutcome := GetOutcome.exc (PyExc.transportError "boom")
            randomBytes := []
            postOutcome := PostOutcome.exc (PyExc.transportError "boom2") }
        "Hi" ChatModelEnum.GPT4O).result =
      Except.error (PyExc.connectionError "Failed to retrieve authentication tokens: boom") :=
  (chat_error_kind_classification
    { getOutcome := GetOutcome.exc (PyExc.transportError "boom")
      randomBytes := []
      postOutcome := PostOutcome.exc (PyExc.transportError "boom2") }
    "Hi" ChatModelEnum.GPT4O).2.1
    (PyExc.connectionError "Failed to retrieve authentication tokens: boom") rfl

/-- `bytes.hex()` yields two characters per byte. -/
theorem bytesToHex_length (bytes : List Nat) :
    (bytesToHex bytes).length = 2 * bytes.length := by
  induction bytes with
  | nil => rfl
  | cons b bs ih =>
    show ((bytesToHex (b :: bs)).data).length = 2 * (b :: bs).length
    have ihd : ((bytesToHex bs).data).length = 2 * bs.length := ih
    simp only [bytesToHex, List.map_cons, List.flatten_cons, List.length_cons] at *
    simp only [List.length_append, List.length_cons, List.length_nil] at *
    omega

/-- Each hex digit character of a value below 16 is a lowercase hex digit. -/
theorem hexDigitChar_isLowerHex (d : Nat) (hd : d < 16) :
    isLowerHexDigitChar (hexDigitChar d) = true := by
  interval_cases d <;> decide

/-- Every character of `bytes.hex()` is a lowercase hex digit. -/
theorem bytesToHex_chars (bytes : List Nat) :
    ∀ c ∈ (bytesToHex bytes).data, isLowerHexDigitChar c = true := by
  intro c hc
  simp only [bytesToHex] at hc
  rw [List.mem_flatten] at hc
  obtain ⟨l, hl, hcl⟩ := hc
  rw [List.mem_map] at hl
  obtain ⟨b, _, rfl⟩ := hl
  simp only [List.mem_cons, List.not_mem_nil, or_false] at hcl
  rcases hcl with rfl | rfl
  · exact hexDigitChar_isLowerHex _ (by omega)
  · exact hexDigitChar_isLowerHex _ (by omega)

/-- C8: once tokens are fetched, the POST form body contains exactly the
nine fields with the extracted nonce and post id, the base URL, the constant
action, the query as message, the constant bot id `"0"`, the constant
chatbot identity `"shortcode"`, the client id freshly derived from this
call's random bytes (a fixed-length ten-character lowercase hex token for
the five bytes of `os.urandom(5)`), and the JSON-serialized transcript;
the payload is a function of this call's inputs alone. -/
theorem chat_payload_fields (env : ChatEnv) (q : String) (m : ChatModelEnum)
    (nonce postId : String)
    (hget : get_auth_tokens env.getOutcome = Except.ok (nonce, postId))
    (hlen : env.randomBytes.length = 5) :
    (chat env q m).posted = some
      { wpnonce := nonce
        post_id := postId
        url := BASE_URL
        action := "wpaicg_chat_shortcode_message"
        message := q
        bot_id := "0"
        chatbot_identity := "shortcode"
        wpaicg_chat_client_id := bytesToHex env.randomBytes
        wpaicg_chat_history :=
          jsonDumpsStrList (prepare_conversation [{ role := "user", content := q }]) }
    ∧ (bytesToHex env.randomBytes).length = 10
    ∧ ∀ c ∈ (bytesToHex env.randomBytes).data, isLowerHexDigitChar c = true := by
  refine ⟨?_, ?_, bytesToHex_chars env.randomBytes⟩
  · rw [chat_ok env q m nonce postId hget]
  · rw [bytesToHex_length, hlen]

/-- Witness for C8: a concrete call posts exactly the expected payload with
a ten-character lowercase hex client id. -/
theorem chat_payload_fields_witness :
    (chat { getOutcome := GetOutcome.resp ⟨200, "<c data-nonce=\"n1\" data-post-id=\"42\">"⟩
            randomBytes := [255, 2, 3, 4, 5]
            postOutcome := PostOutcome.resp 200
              (PostBody.json (JsonValue.obj [("data", JsonValue.str "Hi there!")])) }
        "Hi" ChatModelEnum.GPT4O).posted = some
      { wpnonce := "n1"
        post_id := "42"
        url := BASE_URL
        action := "wpaicg_chat_shortcode_message"
        message := "Hi"
        bot_id := "0"
        chatbot_identity := "shortcode"
        wpaicg_chat_client_id := bytesToHex [255, 2, 3, 4, 5]
        wpaicg_chat_history :=
          jsonDumpsStrList (prepare_conversation [{ role := "user", content := "Hi" }]) }
    ∧ (bytesToHex [255, 2, 3, 4, 5]).length = 10
    ∧ ∀ c ∈ (bytesToHex [255, 2, 3, 4, 5]).data, isLowerHexDigitChar c = true :=
  chat_payload_fields
    { getOutcome := GetOutcome.resp ⟨200, "<c data-nonce=\"n1\" data-post-id=\"42\">"⟩
      randomBytes := [255, 2, 3, 4, 5]
      postOutcome := PostOutcome.resp 200
        (PostBody.json (JsonValue.obj [("data", JsonValue.str "Hi there!")])) }
    "Hi" ChatModelEnum.GPT4O "n1" "42" (by decide) rfl

/-! ## Round-trip of the serialized transcript (towards C7) -/

theorem parseJString_quote (fuel : Nat) (rest : List Char) :
    parseJString (fuel + 1) ('"' :: rest) = some ([], rest) := rfl

theorem parseEscapeBody_simple (e d : Char) (rest : List Char)
    (hu : e ≠ 'u') (he : simpleUnescape e = some d) :
    parseEscapeBody (e :: rest) = some (d, rest) := by
  rw [parseEscapeBody.eq_def]
  simp only [if_neg hu, he]
  rfl

theorem parseJString_escape_step (fuel : Nat) (d : Char) (l rest : List Char)
    (he : parseEscapeBody l = some (d, rest)) :
    parseJString (fuel + 1) ('\\' :: l) =
      match parseJString fuel rest with
      | some (s, r) => some (d :: s, r)
      | none => none := by
  rw [parseJString.eq_def]
  simp only [if_neg (show ¬('\\' : Char) = '"' by decide), if_pos rfl, he, if_true]

theorem parseJString_literal_step (fuel : Nat) (c : Char) (rest : List Char)
    (hq : c ≠ '"') (hb : c ≠ '\\') (hc : ¬ c.toNat < 32) :
    parseJString (fuel + 1) (c :: rest) =
      match parseJString fuel rest with
      | some (s, r) => some (c :: s, r)
      | none => none := by
  rw [parseJString.eq_def]
  simp only [if_neg hq, if_neg hb, if_neg hc]

theorem hexCharVal_hexDigitChar (d : Nat) (hd : d < 16) :
    hexCharVal (hexDigitChar d) = some d := by
  interval_cases d <;> decide

theorem hex4Val_hex4Chars (n : Nat) (hn : n < 65536) :
    hex4Val (hexDigitChar (n / 4096 % 16)) (hexDigitChar (n / 256 % 16))
      (hexDigitChar (n / 16 % 16)) (hexDigitChar (n % 16)) = some n := by
  unfold hex4Val
  rw [hexCharVal_hexDigitChar _ (Nat.mod_lt _ (by norm_num)),
    hexCharVal_hexDigitChar _ (Nat.mod_lt _ (by norm_num)),
    hexCharVal_hexDigitChar _ (Nat.mod_lt _ (by norm_num)),
    hexCharVal_hexDigitChar _ (Nat.mod_lt _ (by norm_num))]
  have harith : 4096 * (n / 4096 % 16) + 256 * (n / 256 % 16) + 16 * (n / 16 % 16) + n % 16 = n := by
    omega
  exact congrArg some harith

theorem parseHex4_hex4Chars (n : Nat) (hn : n < 65536) (l : List Char) :
    parseHex4 (hex4Chars n ++ l) = some (n, l) := by
  simp only [hex4Chars, List.cons_append, List.nil_append, parseHex4,
    hex4Val_hex4Chars n hn]
  rfl

theorem char_toNat_valid (c : Char) :
    c.toNat < 55296 ∨ (57343 < c.toNat ∧ c.toNat < 1114112) := c.valid

theorem parseEscapeBody_unicode (n : Nat) (l : List Char) (hn : n < 65536)
    (hhi : ¬(55296 ≤ n ∧ n ≤ 56319)) (hlo : ¬(56320 ≤ n ∧ n ≤ 57343)) :
    parseEscapeBody ('u' :: (hex4Chars n ++ l)) = some (Char.ofNat n, l) := by
  rw [parseEscapeBody.eq_def]
  simp only [if_pos rfl, parseHex4_hex4Chars n hn, if_neg hhi, if_neg hlo, if_true]

theorem parseEscapeBody_surrogate (n m : Nat) (l : List Char)
    (hn1 : 55296 ≤ n) (hn2 : n ≤ 56319) (hm1 : 56320 ≤ m) (hm2 : m ≤ 57343) :
    parseEscapeBody ('u' :: (hex4Chars n ++ ('\\' :: 'u' :: (hex4Chars m ++ l)))) =
      some (Char.ofNat (65536 + 1024 * (n - 55296) + (m - 56320)), l) := by
  rw [parseEscapeBody.eq_def]
  simp only [if_pos rfl, parseHex4_hex4Chars n (by omega), if_pos (And.intro hn1 hn2),
    if_pos (And.intro rfl rfl), parseHex4_hex4Chars m (by omega),
    if_pos (And.intro hm1 hm2), if_true, and_self]

set_option maxHeartbeats 1000000 in
theorem parseJString_encode_char (fuel : Nat) (c : Char) (l : List Char) :
    parseJString (fuel + 1) (encodeJChar c ++ l) =
      match parseJString fuel l with
      | some (s, r) => some (c :: s, r)
      | none => none := by
  have hvalid := char_toNat_valid c
  by_cases h1 : c = '"'
  · subst h1
    rw [show encodeJChar '"' ++ l = '\\' :: ('"' :: l) from rfl,
      parseJString_escape_step fuel '"' ('"' :: l) l
        (parseEscapeBody_simple '"' '"' l (by decide) (by decide))]
  by_cases h2 : c = '\\'
  · subst h2
    rw [show encodeJChar '\\' ++ l = '\\' :: ('\\' :: l) from rfl,
      parseJString_escape_step fuel '\\' ('\\' :: l) l
        (parseEscapeBody_simple '\\' '\\' l (by decide) (by decide))]
  by_cases h3 : c = Char.ofNat 8
  · subst h3
    rw [show encodeJChar (Char.ofNat 8) ++ l = '\\' :: ('b' :: l) from rfl,
      parseJString_escape_step fuel (Char.ofNat 8) ('b' :: l) l
        (parseEscapeBody_simple 'b' (Char.ofNat 8) l (by decide) (by decide))]
  by_cases h4 : c = Char.ofNat 9
  · subst h4
    rw [show encodeJChar (Char.ofNat 9) ++ l = '\\' :: ('t' :: l) from rfl,
      parseJString_escape_step fuel (Char.ofNat 9) ('t' :: l) l
        (parseEscapeBody_simple 't' (Char.ofNat 9) l (by decide) (by decide))]
  by_cases h5 : c = Char.ofNat 10
  · subst h5
    rw [show encodeJChar (Char.ofNat 10) ++ l = '\\' :: ('n' :: l) from rfl,
      parseJString_escape_step fuel (Char.ofNat 10) ('n' :: l) l
        (parseEscapeBody_simple 'n' (Char.ofNat 10) l (by decide) (by decide))]
  by_cases h6 : c = Char.ofNat 12
  · subst h6
    rw [show encodeJChar (Char.ofNat 12) ++ l = '\\' :: ('f' :: l) from rfl,
      parseJString_escape_step fuel (Char.ofNat 12) ('f' :: l) l
        (parseEscapeBody_simple 'f' (Char.ofNat 12) l (by decide) (by decide))]
  by_cases h7 : c = Char.ofNat 13
  · subst h7
    rw [show encodeJChar (Char.ofNat 13) ++ l = '\\' :: ('r' :: l) from rfl,
      parseJString_escape_step fuel (Char.ofNat 13) ('r' :: l) l
        (parseEscapeBody_simple 'r' (Char.ofNat 13) l (by decide) (by decide))]
  by_cases hctl : c.toNat < 32
  · have henc : encodeJChar c ++ l = '\\' :: ('u' :: (hex4Chars c.toNat ++ l)) := by
      rw [encodeJChar]
      simp only [if_neg h1, if_neg h2, if_neg h3, if_neg h4, if_neg h5, if_neg h6, if_neg h7,
        if_pos hctl, List.cons_append]
    rw [henc,
      parseJString_escape_step fuel (Char.ofNat c.toNat) ('u' :: (hex4Chars c.toNat ++ l)) l
        (parseEscapeBody_unicode c.toNat l (by omega) (by omega) (by omega)),
      Char.ofNat_toNat]
  by_cases hasc : c.toNat ≤ 126
  · have henc : encodeJChar c ++ l = c :: l := by
      rw [encodeJChar]
      simp only [if_neg h1, if_neg h2, if_neg h3, if_neg h4, if_neg h5, if_neg h6, if_neg h7,
        if_neg hctl, if_pos hasc, List.cons_append, List.nil_append]
    rw [henc, parseJString_literal_step fuel c l h1 h2 hctl]
  by_cases hbmp : c.toNat < 65536
  · have hnosur : c.toNat < 55296 ∨ 57343 < c.toNat := by
      rcases hvalid with h | h
      · exact Or.inl h
      · exact Or.inr h.1
    have henc : encodeJChar c ++ l = '\\' :: ('u' :: (hex4Chars c.toNat ++ l)) := by
      rw [encodeJChar]
      simp only [if_neg h1, if_neg h2, if_neg h3, if_neg h4, if_neg h5, if_neg h6, if_neg h7,
        if_neg hctl, if_neg hasc, if_pos hbmp, List.cons_append]
    rw [henc,
      parseJString_escape_step fuel (Char.ofNat c.toNat) ('u' :: (hex4Chars c.toNat ++ l)) l
        (parseEscapeBody_unicode c.toNat l hbmp (by omega) (by omega)),
      Char.ofNat_toNat]
  · have hub : c.toNat < 1114112 := by
      rcases hvalid with h | h
      · omega
      · exact h.2
    have henc : encodeJChar c ++ l =
        '\\' :: ('u' :: (hex4Chars (55296 + (c.toNat - 65536) / 1024) ++
          ('\\' :: 'u' :: (hex4Chars (56320 + (c.toNat - 65536) % 1024) ++ l)))) := by
      rw [encodeJChar]
      simp only [if_neg h1, if_neg h2, if_neg h3, if_neg h4, if_neg h5, if_neg h6, if_neg h7,
        if_neg hctl, if_neg hasc, if_neg hbmp, List.cons_append, List.append_assoc]
    have hcomb : 65536 + 1024 * ((55296 + (c.toNat - 65536) / 1024) - 55296) +
        ((56320 + (c.toNat - 65536) % 1024) - 56320) = c.toNat := by
      omega
    rw [henc,
      parseJString_escape_step fuel _ _ l
        (parseEscapeBody_surrogate (55296 + (c.toNat - 65536) / 1024)
          (56320 + (c.toNat - 65536) % 1024) l (by omega) (by omega) (by omega) (by omega)),
      hcomb, Char.ofNat_toNat]

theorem parseJString_encodeJString (s : List Char) (rest : List Char) (fuel : Nat)
    (hfuel : s.length + 1 ≤ fuel) :
    parseJString fuel (encodeJString s ++ ('"' :: rest)) = some (s, rest) := by
  induction s generalizing rest fuel with
  | nil =>
    obtain ⟨f, rfl⟩ : ∃ f, fuel = f + 1 := ⟨fuel - 1, by omega⟩
    rw [show encodeJString [] ++ ('"' :: rest) = '"' :: rest from rfl]
    exact parseJString_quote f rest
  | cons c s' ih =>
    obtain ⟨f, rfl⟩ : ∃ f, fuel = f + 1 := ⟨fuel - 1, by omega⟩
    have hsplit : encodeJString (c :: s') ++ ('"' :: rest) =
        encodeJChar c ++ (encodeJString s' ++ ('"' :: rest)) := by
      simp [encodeJString, List.append_assoc]
    rw [hsplit, parseJString_encode_char f c (encodeJString s' ++ ('"' :: rest)),
      ih rest f (by simp at hfuel; omega)]

set_option maxHeartbeats 1000000 in
theorem encodeJChar_length_pos (c : Char) : 1 ≤ (encodeJChar c).length := by
  rw [encodeJChar]
  split_ifs <;> simp [hex4Chars]

theorem encodeJString_length_ge (s : List Char) : s.length ≤ (encodeJString s).length := by
  induction s with
  | nil => simp [encodeJString]
  | cons c s' ih =>
    have := encodeJChar_length_pos c
    simp only [encodeJString, List.map_cons, List.flatten_cons, List.length_append,
      List.length_cons] at *
    omega

theorem skipWs_not_ws (c : Char) (l : List Char) (h : isJsonWs c = false) :
    skipWs (c :: l) = c :: l := by
  simp [skipWs, h]

theorem skipWs_ws (c : Char) (l : List Char) (h : isJsonWs c = true) :
    skipWs (c :: l) = skipWs l := by
  simp [skipWs, h]

theorem parseMoreItems_encode (items : List (List Char)) (tail : List Char) (fuel : Nat)
    (hfuel : items.length < fuel) :
    parseMoreItems fuel
      ((items.map (fun s => ',' :: ' ' :: '"' :: (encodeJString s ++ ['"']))).flatten ++
        (']' :: tail)) = some (items, tail) := by
  induction items generalizing tail fuel with
  | nil =>
    obtain ⟨f, rfl⟩ : ∃ f, fuel = f + 1 := ⟨fuel - 1, by omega⟩
    rfl
  | cons x xs ih =>
    obtain ⟨f, rfl⟩ : ∃ f, fuel = f + 1 := ⟨fuel - 1, by omega⟩
    have hshape : ((x :: xs).map (fun s => ',' :: ' ' :: '"' :: (encodeJString s ++ ['"']))).flatten ++
        (']' :: tail) =
        ',' :: ' ' :: '"' :: (encodeJString x ++
          ('"' :: ((xs.map (fun s => ',' :: ' ' :: '"' :: (encodeJString s ++ ['"']))).flatten ++
            (']' :: tail)))) := by
      simp [List.append_assoc]
    rw [hshape]
    simp only [parseMoreItems]
    rw [skipWs_not_ws ',' _ (by decide)]
    simp only [if_neg (show ¬(',' : Char) = ']' by decide), if_pos rfl]
    rw [skipWs_ws ' ' _ (by decide), skipWs_not_ws '"' _ (by decide)]
    simp only [if_pos rfl]
    rw [parseJString_encodeJString x _ _ (by
      have := encodeJString_length_ge x
      simp only [List.length_append, List.length_cons]
      omega)]
    simp only [if_true]
    rw [ih _ f (by simp at hfuel ⊢; omega)]

theorem length_le_flatten_length {α β : Type} (f : α → List β) (l : List α)
    (hf : ∀ a, 1 ≤ (f a).length) : l.length ≤ ((l.map f).flatten).length := by
  induction l with
  | nil => simp
  | cons a t ih =>
    have := hf a
    simp only [List.map_cons, List.flatten_cons, List.length_append, List.length_cons]
    omega

theorem joinCommaSpace_cons (a : List Char) (rest : List (List Char)) :
    joinCommaSpace (a :: rest) =
      a ++ (rest.map (fun p => ',' :: ' ' :: p)).flatten := by
  induction rest generalizing a with
  | nil => simp [joinCommaSpace]
  | cons b t ih =>
    rw [show joinCommaSpace (a :: b :: t) = a ++ ',' :: ' ' :: joinCommaSpace (b :: t) from rfl,
      ih b]
    simp

theorem jsonLoads_jsonDumps (l : List String) :
    jsonLoadsStrList (jsonDumpsStrList l) = some l := by
  cases l with
  | nil => rfl
  | cons x xs =>
    have hdata : (jsonDumpsStrList (x :: xs)).data =
        '[' :: '"' :: (encodeJString x.data ++
          ('"' :: (((xs.map String.data).map
            (fun s => ',' :: ' ' :: '"' :: (encodeJString s ++ ['"']))).flatten ++
              (']' :: [])))) := by
      show jsonDumpsItems ((x :: xs).map String.data) = _
      rw [jsonDumpsItems, List.map_cons, List.map_cons,
        joinCommaSpace_cons ('"' :: encodeJString x.data ++ ['"'])]
      simp only [List.map_map]
      simp [List.append_assoc, Function.comp]
      rfl
    rw [jsonLoadsStrList, hdata]
    rw [parseStrArrayChars.eq_def]
    rw [skipWs_not_ws '[' _ (by decide)]
    simp only [if_pos rfl]
    rw [skipWs_not_ws '"' _ (by decide)]
    simp only [if_neg (show ¬('"' : Char) = ']' by decide), if_pos rfl]
    rw [parseJString_encodeJString x.data _ _ (by
      have := encodeJString_length_ge x.data
      simp only [List.length_append, List.length_cons]
      omega)]
    simp only [if_true]
    rw [parseMoreItems_encode (xs.map String.data) []
      ((((xs.map String.data).map
          (fun s => ',' :: ' ' :: '"' :: (encodeJString s ++ ['"']))).flatten ++ [']']).length + 1)
      (by
        have : (xs.map String.data).length ≤
            (((xs.map String.data).map
              (fun s => ',' :: ' ' :: '"' :: (encodeJString s ++ ['"']))).flatten).length :=
          length_le_flatten_length _ _ (fun a => by simp)
        simp only [List.length_append, List.length_cons, List.length_map] at *
        omega)]
    simp only [List.map_cons]
    have hmap : List.map String.mk (List.map String.data xs) = xs := by
      rw [List.map_map]
      exact List.map_id xs
    rw [if_pos (show skipWs [] = ([] : List Char) from rfl), hmap]

/-- C7: For every input message sequence, the transcript produced by the
Conversation Formatter, serialized by `json.dumps` to a JSON array of
strings and parsed back by `json.loads`, yields the same ordered sequence
of strings. -/
theorem transcript_json_round_trip (messages : List Message) :
    jsonLoadsStrList (jsonDumpsStrList (prepare_conversation messages)) =
      some (prepare_conversation messages) :=
  jsonLoads_jsonDumps (prepare_conversation messages)
